import Mathlib

/-!
# Data-access hooks of `src/integrations/supabase/index.js`

Shallow embedding of the fifteen hooks of the module (list, get-by-id, create,
update and delete for the tables `users`, `posts` and `comments`), of the
requests they build with the backend client, and of the part of the query
library (`@tanstack/react-query`, imported on line 2 of the module) that decides
when a cached read is refetched and which cache entries a mutation invalidates.

Layout: values and requests, the hooks as written in the module, the query
cache, then the theorems.
-/

namespace SupabaseHooks

/-! ## Values exchanged with the backend -/

/-- A JavaScript scalar: the value of a record field or of an `eq` filter. -/
inductive Scalar where
  | undefined
  | null
  | bool (b : Bool)
  | num (n : Int)
  | str (s : String)
  deriving DecidableEq, Repr

/-- A row of a table: field names with scalar values. -/
structure Record where
  fields : List (String × Scalar)
  deriving DecidableEq, Repr

/-- Property read `record.field`; `undefined` when the object has no such property. -/
def Record.get (r : Record) (field : String) : Scalar :=
  (r.fields.lookup field).getD Scalar.undefined

/-- The `data` member of a backend response. -/
inductive Data where
  | null
  | row (r : Record)
  | rows (rs : List Record)
  deriving DecidableEq, Repr

/-- The `error` member of a backend response when it is not `null`. -/
structure PostgrestError where
  message : String
  details : String
  hint : String
  code : String
  deriving DecidableEq, Repr

/-- What an awaited request resolves to: `{ data, error }`. -/
structure Response where
  data : Data
  error : Option PostgrestError
  deriving DecidableEq, Repr

/-- A JavaScript `Error` object: its class name and its message. -/
structure JsError where
  name : String
  message : String
  deriving DecidableEq, Repr

/-- The expression `new Error(message)`. -/
def newError (message : String) : JsError :=
  { name := "Error", message := message }

/-! ## Requests built with the backend client -/

/-- The four request kinds of the client's query builder. -/
inductive Method where
  | select
  | insert
  | update
  | delete
  deriving DecidableEq, Repr

/-- A request as assembled by a chain `supabase.from(t).….eq(…).single()`. -/
structure Request where
  table : String
  method : Method
  columns : Option String
  body : Option Record
  filters : List (String × Scalar)
  expectSingle : Bool
  deriving DecidableEq, Repr

/-- The value of `supabase.from(table)`. -/
structure QueryBuilder where
  table : String
  deriving DecidableEq, Repr

/-- The call `supabase.from(table)`. -/
def supabase_from (table : String) : QueryBuilder :=
  { table := table }

/-- The call `.select(columns)`. -/
def QueryBuilder.select (q : QueryBuilder) (columns : String) : Request :=
  { table := q.table, method := Method.select, columns := some columns, body := none,
    filters := [], expectSingle := false }

/-- The call `.insert(values)`. -/
def QueryBuilder.insert (q : QueryBuilder) (values : Record) : Request :=
  { table := q.table, method := Method.insert, columns := none, body := some values,
    filters := [], expectSingle := false }

/-- The call `.update(values)`. -/
def QueryBuilder.update (q : QueryBuilder) (values : Record) : Request :=
  { table := q.table, method := Method.update, columns := none, body := some values,
    filters := [], expectSingle := false }

/-- The call `.delete()`. -/
def QueryBuilder.delete (q : QueryBuilder) : Request :=
  { table := q.table, method := Method.delete, columns := none, body := none,
    filters := [], expectSingle := false }

/-- The call `.eq(column, value)`: one more equality condition. -/
def Request.eq (r : Request) (column : String) (value : Scalar) : Request :=
  { r with filters := r.filters ++ [(column, value)] }

/-- The call `.single()`: the answer must be exactly one row. -/
def Request.single (r : Request) : Request :=
  { r with expectSingle := true }

/-- The backend as seen from the module: the answer to a request may depend on
every request sent before it (oldest first). -/
abbrev Backend := List Request → Request → Response

/-- The two statements every `queryFn` and `mutationFn` of the module runs on the
awaited response: `if (error) throw new Error(error.message); return data;`. -/
def throwIfError (r : Response) : Except JsError Data :=
  match r.error with
  | some e => Except.error (newError e.message)
  | none => Except.ok r.data

/-- One run of a `queryFn` or `mutationFn` body: the single awaited request is
sent and its response handled. Yields the outcome and the requests sent so far. -/
def runFn (req : Request) (b : Backend) (sent : List Request) :
    Except JsError Data × List Request :=
  (throwIfError (b sent req), sent ++ [req])

/-! ### The backend's answer to a `select` -/

/-- The error the backend client reports when `.single()` does not get exactly
one row. -/
def singleRowError : PostgrestError :=
  { message := "JSON object requested, multiple (or no) rows returned",
    details := "The result contains 0 rows", hint := "", code := "PGRST116" }

/-- Rows of a table that satisfy every equality condition of a request. -/
def matchingRows (tableRows : List Record) (filters : List (String × Scalar)) : List Record :=
  tableRows.filter (fun r => filters.all (fun f => r.get f.1 == f.2))

/-- Answer to a `select` over the given rows of the addressed table: with
`.single()` exactly one matching row is returned as an object and anything else
is an error; without it the matching rows are returned as a list. -/
def execSelect (tableRows : List Record) (req : Request) : Response :=
  if req.expectSingle then
    match matchingRows tableRows req.filters with
    | [r] => { data := Data.row r, error := none }
    | _ => { data := Data.null, error := some singleRowError }
  else
    { data := Data.rows (matchingRows tableRows req.filters), error := none }

/-! ## The hooks of the module -/

/-- The options object a read hook passes to `useQuery`. The `queryFn` is given
by the request it awaits; the rest of its body is `throwIfError`. -/
structure QueryOptions where
  queryKey : List String
  queryFn : Request
  deriving DecidableEq, Repr

/-- The argument of `queryClient.invalidateQueries(…)`: a string primitive, as
the module passes, or a filters object with an optional `queryKey`. -/
inductive FilterArg where
  | str (s : String)
  | filters (queryKey : Option (List String))
  deriving DecidableEq, Repr

/-- The options object a write hook passes to `useMutation`. The `mutationFn` is
given by the request it awaits for its argument; `onSuccess` by the argument it
hands to `queryClient.invalidateQueries`. -/
structure MutationOptions (V : Type) where
  mutationFn : V → Request
  onSuccess : FilterArg

/-- Hook `useUsers`. -/
def useUsers : QueryOptions :=
  { queryKey := ["users"],
    queryFn := (supabase_from "users").select "*" }

/-- Hook `useUser(id)`. -/
def useUser (id : String) : QueryOptions :=
  { queryKey := ["user", id],
    queryFn := (((supabase_from "users").select "*").eq "id" (Scalar.str id)).single }

/-- Hook `useCreateUser`. -/
def useCreateUser : MutationOptions Record :=
  { mutationFn := fun newUser => (supabase_from "users").insert newUser,
    onSuccess := FilterArg.str "users" }

/-- Hook `useUpdateUser`. -/
def useUpdateUser : MutationOptions Record :=
  { mutationFn := fun updatedUser =>
      ((supabase_from "users").update updatedUser).eq "id" (updatedUser.get "id"),
    onSuccess := FilterArg.str "users" }

/-- Hook `useDeleteUser`. -/
def useDeleteUser : MutationOptions String :=
  { mutationFn := fun id => ((supabase_from "users").delete).eq "id" (Scalar.str id),
    onSuccess := FilterArg.str "users" }

/-- Hook `usePosts`. -/
def usePosts : QueryOptions :=
  { queryKey := ["posts"],
    queryFn := (supabase_from "posts").select "*" }

/-- Hook `usePost(id)`. -/
def usePost (id : String) : QueryOptions :=
  { queryKey := ["post", id],
    queryFn := (((supabase_from "posts").select "*").eq "id" (Scalar.str id)).single }

/-- Hook `useCreatePost`. -/
def useCreatePost : MutationOptions Record :=
  { mutationFn := fun newPost => (supabase_from "posts").insert newPost,
    onSuccess := FilterArg.str "posts" }

/-- Hook `useUpdatePost`. -/
def useUpdatePost : MutationOptions Record :=
  { mutationFn := fun updatedPost =>
      ((supabase_from "posts").update updatedPost).eq "id" (updatedPost.get "id"),
    onSuccess := FilterArg.str "posts" }

/-- Hook `useDeletePost`. -/
def useDeletePost : MutationOptions String :=
  { mutationFn := fun id => ((supabase_from "posts").delete).eq "id" (Scalar.str id),
    onSuccess := FilterArg.str "posts" }

/-- Hook `useComments`. -/
def useComments : QueryOptions :=
  { queryKey := ["comments"],
    queryFn := (supabase_from "comments").select "*" }

/-- Hook `useComment(id)`. -/
def useComment (id : String) : QueryOptions :=
  { queryKey := ["comment", id],
    queryFn := (((supabase_from "comments").select "*").eq "id" (Scalar.str id)).single }

/-- Hook `useCreateComment`. -/
def useCreateComment : MutationOptions Record :=
  { mutationFn := fun newComment => (supabase_from "comments").insert newComment,
    onSuccess := FilterArg.str "comments" }

/-- Hook `useUpdateComment`. -/
def useUpdateComment : MutationOptions Record :=
  { mutationFn := fun updatedComment =>
      ((supabase_from "comments").update updatedComment).eq "id" (updatedComment.get "id"),
    onSuccess := FilterArg.str "comments" }

/-- Hook `useDeleteComment`. -/
def useDeleteComment : MutationOptions String :=
  { mutationFn := fun id => ((supabase_from "comments").delete).eq "id" (Scalar.str id),
    onSuccess := FilterArg.str "comments" }

/-! ### The hooks indexed by collection -/

/-- The three tables the module has hooks for. -/
inductive Collection where
  | users
  | posts
  | comments
  deriving DecidableEq, Repr

/-- Name of the backend table of a collection. -/
def Collection.table : Collection → String
  | Collection.users => "users"
  | Collection.posts => "posts"
  | Collection.comments => "comments"

/-- The listing hook of a collection. -/
def Collection.useList : Collection → QueryOptions
  | Collection.users => useUsers
  | Collection.posts => usePosts
  | Collection.comments => useComments

/-- The get-by-id hook of a collection. -/
def Collection.useOne : Collection → String → QueryOptions
  | Collection.users => useUser
  | Collection.posts => usePost
  | Collection.comments => useComment

/-- The create hook of a collection. -/
def Collection.useCreate : Collection → MutationOptions Record
  | Collection.users => useCreateUser
  | Collection.posts => useCreatePost
  | Collection.comments => useCreateComment

/-- The update hook of a collection. -/
def Collection.useUpdate : Collection → MutationOptions Record
  | Collection.users => useUpdateUser
  | Collection.posts => useUpdatePost
  | Collection.comments => useUpdateComment

/-- The delete hook of a collection. -/
def Collection.useDelete : Collection → MutationOptions String
  | Collection.users => useDeleteUser
  | Collection.posts => useDeletePost
  | Collection.comments => useDeleteComment

/-- A call of one of the fifteen operations, with its argument. -/
inductive Operation where
  | list (c : Collection)
  | getOne (c : Collection) (id : String)
  | create (c : Collection) (payload : Record)
  | update (c : Collection) (payload : Record)
  | delete (c : Collection) (id : String)
  deriving DecidableEq, Repr

/-- The request the operation's `queryFn` or `mutationFn` awaits. -/
def Operation.request : Operation → Request
  | Operation.list c => c.useList.queryFn
  | Operation.getOne c id => (c.useOne id).queryFn
  | Operation.create c payload => c.useCreate.mutationFn payload
  | Operation.update c payload => c.useUpdate.mutationFn payload
  | Operation.delete c id => c.useDelete.mutationFn id

/-- One run of the operation's `queryFn` or `mutationFn`. -/
def Operation.run (op : Operation) (b : Backend) (sent : List Request) :
    Except JsError Data × List Request :=
  runFn op.request b sent

/-! ## The query cache

The hooks read through the query client of the component tree. The module
creates one client, `queryClient`, uses it for every invalidation and exports
it; the model takes it to be the client the hooks read through. Operations are
run one after the other: a fetch has settled before the next operation starts. -/

/-- One entry of the query cache: the last fetched value with its bookkeeping. -/
structure Query where
  queryKey : List String
  queryFn : Request
  data : Option Data
  dataUpdatedAt : Nat
  error : Option JsError
  isInvalidated : Bool
  observers : Nat
  deriving DecidableEq, Repr

/-- A query client: the default options that matter here and the cache. The
cache finds an entry by the JSON text of its key, which is one-to-one on arrays
of strings, so keys are compared as lists of strings. -/
structure QueryClient where
  staleTime : Nat
  retry : Nat
  queries : List Query
  deriving DecidableEq, Repr

/-- The client of the module, `new QueryClient()`: no options are given, so
the library defaults hold (data is stale as soon as it is written, a failed
fetch of a query is retried three times) and the cache starts empty. -/
def queryClient : QueryClient :=
  { staleTime := 0, retry := 3, queries := [] }

/-- The client together with the requests sent to the backend so far, oldest first. -/
structure World where
  client : QueryClient
  sent : List Request
  deriving DecidableEq, Repr

/-- Milliseconds until data written at `updatedAt` becomes stale:
`Math.max(updatedAt + (staleTime || 0) - Date.now(), 0)`. Subtraction on natural
numbers stops at zero, which is the value the maximum with 0 gives. -/
def timeUntilStale (updatedAt staleTime now : Nat) : Nat :=
  max (updatedAt + staleTime - now) 0

/-- Whether a newly subscribed reader starts a fetch: the entry has no data, or
it was invalidated, or its data is stale by time. -/
def Query.shouldFetchOnMount (q : Query) (staleTime now : Nat) : Bool :=
  q.data.isNone || q.isInvalidated || timeUntilStale q.dataUpdatedAt staleTime now == 0

/-- Whether some mounted component reads the entry. -/
def Query.isActive (q : Query) : Bool :=
  decide (0 < q.observers)

/-- The method `query.invalidate()`. -/
def Query.invalidate (q : Query) : Query :=
  { q with isInvalidated := true }

/-- The state of an entry after a fetch of it has settled at time `now`. -/
def Query.settle (q : Query) (outcome : Except JsError Data) (now : Nat) : Query :=
  match outcome with
  | Except.ok d =>
      { q with data := some d, dataUpdatedAt := now, error := none, isInvalidated := false }
  | Except.error e => { q with error := some e }

/-- The entry the cache builds for a key it does not hold yet. -/
def newQuery (opts : QueryOptions) : Query :=
  { queryKey := opts.queryKey, queryFn := opts.queryFn, data := none, dataUpdatedAt := 0,
    error := none, isInvalidated := false, observers := 0 }

/-- Cache lookup by key. -/
def findQuery (queries : List Query) (key : List String) : Option Query :=
  queries.find? (fun q => q.queryKey == key)

/-- The cache with an entry for the key of `opts` added when there is none. -/
def buildQuery (queries : List Query) (opts : QueryOptions) : List Query :=
  if (findQuery queries opts.queryKey).isSome then queries else queries ++ [newQuery opts]

/-- The cache with `f` applied to the entry of `key`. -/
def modifyQuery (queries : List Query) (key : List String) (f : Query → Query) : List Query :=
  queries.map (fun q => if q.queryKey == key then f q else q)

/-- A component subscribes to the entry: one more observer. -/
def Query.subscribe (q : Query) : Query :=
  { q with observers := q.observers + 1 }

/-- A fetch started by a reader takes over the options of the reader's hook. -/
def Query.setOptions (q : Query) (opts : QueryOptions) : Query :=
  { q with queryFn := opts.queryFn }

/-- A fetch as the library runs it: the `queryFn` body is run, and run again
after a failure, until it succeeds or `retry` retries are used up. -/
def fetchWithRetry : Nat → Backend → Request → List Request → Except JsError Data × List Request
  | 0, b, req, sent => runFn req b sent
  | n + 1, b, req, sent =>
      match throwIfError (b sent req) with
      | Except.ok d => (Except.ok d, sent ++ [req])
      | Except.error _ => fetchWithRetry n b req (sent ++ [req])

/-- What a read hook hands to its component. -/
structure ReadResult where
  cached : Option Data
  fetched : Bool
  data : Option Data
  error : Option JsError
  deriving DecidableEq, Repr

/-- A component mounts and calls a read hook for the first time: it subscribes
to the entry of the key (built if missing), is shown the cached data at once,
and a fetch is started when `shouldFetchOnMount` says so. -/
def useQuery_mount (opts : QueryOptions) (b : Backend) (now : Nat) (w : World) :
    World × ReadResult :=
  let subscribed := modifyQuery (buildQuery w.client.queries opts) opts.queryKey
    (fun q => q.subscribe)
  match findQuery subscribed opts.queryKey with
  | none =>
      ({ w with client := { w.client with queries := subscribed } },
        { cached := none, fetched := false, data := none, error := none })
  | some q =>
      if q.shouldFetchOnMount w.client.staleTime now then
        let out := fetchWithRetry w.client.retry b opts.queryFn w.sent
        let q1 := (q.setOptions opts).settle out.1 now
        ({ client := { w.client with
              queries := modifyQuery subscribed opts.queryKey
                (fun e => (e.setOptions opts).settle out.1 now) },
           sent := out.2 },
          { cached := q.data, fetched := true, data := q1.data, error := q1.error })
      else
        ({ w with client := { w.client with queries := subscribed } },
          { cached := q.data, fetched := false, data := q.data, error := q.error })

/-- A mounted component renders again and calls its read hook with the same
key: it is handed the entry as it stands, and nothing is fetched. -/
def useQuery_render (opts : QueryOptions) (w : World) : World × ReadResult :=
  match findQuery w.client.queries opts.queryKey with
  | none => (w, { cached := none, fetched := false, data := none, error := none })
  | some q => (w, { cached := q.data, fetched := false, data := q.data, error := q.error })

/-! ### Invalidation -/

/-- Property read `filters.queryKey` on the argument of `invalidateQueries`. Under
the package name the module imports (`@tanstack/react-query`) the first argument
is a filters object and a string is not turned into a key. A string primitive
has no property called `queryKey`, nor any other filter property, so every
filter read from it is `undefined`: no filter is present. -/
def FilterArg.queryKey : FilterArg → Option (List String)
  | FilterArg.str _ => none
  | FilterArg.filters k => k

/-- The library's partial key match: every element of the filter key equals
the element of the entry's key at the same index. -/
def partialMatchKey : List String → List String → Bool
  | _, [] => true
  | [], _ :: _ => false
  | a :: as, b :: bs => a == b && partialMatchKey as bs

/-- The library's `matchQuery`: an entry passes unless a filter that is
present rejects it. `activeOnly` is the filter `type: 'active'`. -/
def matchQuery (filters : FilterArg) (activeOnly : Bool) (q : Query) : Bool :=
  (match filters.queryKey with
    | some k => partialMatchKey q.queryKey k
    | none => true)
  && (!activeOnly || q.isActive)

/-- First half of `invalidateQueries(filters)`: `query.invalidate()` on every
entry that passes the filters. -/
def markInvalidated (filters : FilterArg) (queries : List Query) : List Query :=
  queries.map (fun q => if matchQuery filters false q then q.invalidate else q)

/-- Second half of `invalidateQueries(filters)`: every entry that passes the
filters and is read by a mounted component is fetched again, and the call
waits for these fetches. -/
def refetchQueries (filters : FilterArg) (retry : Nat) (b : Backend) (now : Nat) :
    List Query → List Request → List Query × List Request
  | [], sent => ([], sent)
  | q :: qs, sent =>
      if matchQuery filters true q then
        let out := fetchWithRetry retry b q.queryFn sent
        let rest := refetchQueries filters retry b now qs out.2
        (q.settle out.1 now :: rest.1, rest.2)
      else
        let rest := refetchQueries filters retry b now qs sent
        (q :: rest.1, rest.2)

/-! ### Mutations -/

/-- A write hook applied to its argument: the request its `mutationFn` awaits and
the argument its `onSuccess` hands to `invalidateQueries`. -/
structure MutationCall where
  request : Request
  onSuccess : FilterArg
  deriving DecidableEq, Repr

/-- The call `hook.mutate(arg)`. -/
def MutationOptions.call {V : Type} (m : MutationOptions V) (arg : V) : MutationCall :=
  { request := m.mutationFn arg, onSuccess := m.onSuccess }

/-- What a mutation leaves behind: its result, the cache as it stood right after
the `query.invalidate()` calls of `onSuccess` (absent when `onSuccess` did not
run), and the world when the mutation completes. -/
structure MutationOutcome where
  result : Except JsError Data
  marked : Option (List Query)
  final : World

/-- A mutation as `useMutation` runs it: `mutationFn` is run once (mutations
are not retried); when it throws, the error is the result and `onSuccess` is not
called; when it returns, `onSuccess` runs `queryClient.invalidateQueries(…)` and
the mutation completes after it. -/
def useMutation_mutate (m : MutationCall) (b : Backend) (now : Nat) (w : World) :
    MutationOutcome :=
  let out := runFn m.request b w.sent
  match out.1 with
  | Except.error e =>
      { result := Except.error e, marked := none, final := { w with sent := out.2 } }
  | Except.ok d =>
      let marked := markInvalidated m.onSuccess w.client.queries
      let refetched := refetchQueries m.onSuccess w.client.retry b now marked out.2
      { result := Except.ok d, marked := some marked,
        final := { client := { w.client with queries := refetched.1 }, sent := refetched.2 } }

/-- A call of one of the nine write hooks, with its argument. -/
inductive Mutation where
  | create (c : Collection) (payload : Record)
  | update (c : Collection) (payload : Record)
  | delete (c : Collection) (id : String)
  deriving DecidableEq, Repr

/-- The collection whose hook is called. -/
def Mutation.collection : Mutation → Collection
  | Mutation.create c _ => c
  | Mutation.update c _ => c
  | Mutation.delete c _ => c

/-- The hook applied to its argument. -/
def Mutation.call : Mutation → MutationCall
  | Mutation.create c payload => c.useCreate.call payload
  | Mutation.update c payload => c.useUpdate.call payload
  | Mutation.delete c id => c.useDelete.call id

/-- The mutation run against a world. -/
def Mutation.run (m : Mutation) (b : Backend) (now : Nat) (w : World) : MutationOutcome :=
  useMutation_mutate m.call b now w

/-- A backend response that reports a failure to reach the server. -/
def connectivityFailure : Response :=
  { data := Data.null,
    error := some { message := "TypeError: Failed to fetch", details := "", hint := "",
                    code := "" } }

/-- The options of the read hook behind an operation, when it is a read. -/
def Operation.readOptions : Operation → Option QueryOptions
  | Operation.list c => some c.useList
  | Operation.getOne c id => some (c.useOne id)
  | Operation.create _ _ => none
  | Operation.update _ _ => none
  | Operation.delete _ _ => none

/-- The write hook call behind an operation, when it is a write. -/
def Operation.toMutation : Operation → Option Mutation
  | Operation.list _ => none
  | Operation.getOne _ _ => none
  | Operation.create c payload => some (Mutation.create c payload)
  | Operation.update c payload => some (Mutation.update c payload)
  | Operation.delete c id => some (Mutation.delete c id)

/-! ## Relations and scenarios used in the theorems -/

/-- How `refetchQueries` may change an entry: not at all, or by settling a fetch
of it when it passes the filters and is read by a mounted component. -/
def Refetched (filters : FilterArg) (now : Nat) (q q1 : Query) : Prop :=
  q1 = q ∨ (matchQuery filters true q = true ∧ ∃ outcome, q1 = q.settle outcome now)

/-- The entry a read of `opts` finds or builds, before it subscribes. -/
def entryFor (queries : List Query) (opts : QueryOptions) : Query :=
  (findQuery queries opts.queryKey).getD (newQuery opts)

/-- A backend that answers every request with the one record 42 and no error. -/
def answering : Backend :=
  fun _ _ => { data := Data.row { fields := [("id", Scalar.str "42")] }, error := none }

/-- A backend that answers every request with a permission error. -/
def refusing : Backend :=
  fun _ _ =>
    { data := Data.null,
      error := some { message := "permission denied", details := "", hint := "",
                      code := "42501" } }

/-- The payload `{ id: "7", title: "X" }`. -/
def post7 : Record :=
  { fields := [("id", Scalar.str "7"), ("title", Scalar.str "X")] }

/-- A cached entry with data written at `updatedAt`, not invalidated. -/
def cachedEntry (opts : QueryOptions) (updatedAt observers : Nat) : Query :=
  { queryKey := opts.queryKey, queryFn := opts.queryFn, data := some (Data.rows []),
    dataUpdatedAt := updatedAt, error := none, isInvalidated := false, observers := observers }

/-- The module's client holding the posts listing (read by a mounted component),
post 7 and the comments listing (both read by no mounted component). -/
def sampleWorld : World :=
  { client := { queryClient with
      queries := [cachedEntry usePosts 3 1, cachedEntry (usePost "7") 4 0,
        cachedEntry useComments 5 0] },
    sent := [] }

/-- The module's client with an empty cache and nothing sent yet. -/
def emptyWorld : World :=
  { client := queryClient, sent := [] }

/-- A first get-by-id read of user 42 through the module's client at time 5. -/
def firstRead : World × ReadResult :=
  useQuery_mount (useUser "42") answering 5 emptyWorld

/-- A later get-by-id read of user 42, by a newly mounted component, at time 10. -/
def secondRead : World × ReadResult :=
  useQuery_mount (useUser "42") answering 10 firstRead.1

/-! ## Lemmas on the cache -/

/-- A map that keeps keys commutes with cache lookup. -/
theorem findQuery_map (f : Query → Query) (hf : ∀ q, (f q).queryKey = q.queryKey)
    (queries : List Query) (key : List String) :
    findQuery (queries.map f) key = (findQuery queries key).map f := by
  unfold findQuery
  rw [List.find?_map]
  have : ((fun q : Query => q.queryKey == key) ∘ f) = (fun q : Query => q.queryKey == key) := by
    funext q
    simp [hf]
  rw [this]

/-- A lookup returns an entry stored under the key asked for. -/
theorem findQuery_key {queries : List Query} {key : List String} {q : Query}
    (h : findQuery queries key = some q) : q.queryKey = key := by
  have := List.find?_some h
  simpa using this

/-- Lookup of the modified key after `modifyQuery`. -/
theorem findQuery_modifyQuery (f : Query → Query) (hf : ∀ q, (f q).queryKey = q.queryKey)
    (queries : List Query) (key : List String) :
    findQuery (modifyQuery queries key f) key = (findQuery queries key).map f := by
  unfold modifyQuery
  rw [findQuery_map _ _ queries key]
  · cases h : findQuery queries key with
    | none => rfl
    | some q => simp [findQuery_key h]
  · intro q
    split <;> simp [hf]

/-- After `buildQuery` the key of the options has an entry: the old one or a new one. -/
theorem findQuery_buildQuery (queries : List Query) (opts : QueryOptions) :
    findQuery (buildQuery queries opts) opts.queryKey
      = some ((findQuery queries opts.queryKey).getD (newQuery opts)) := by
  unfold buildQuery
  cases h : findQuery queries opts.queryKey with
  | some q => simp [h]
  | none =>
      simp only [Option.isSome_none, Bool.false_eq_true, if_false, Option.getD_none]
      unfold findQuery at h ⊢
      rw [List.find?_append, h]
      simp [newQuery]

/-- A string argument filters nothing out. -/
theorem matchQuery_str (s : String) (q : Query) :
    matchQuery (FilterArg.str s) false q = true := by
  simp [matchQuery, FilterArg.queryKey]

/-- With a string argument every entry of the cache is invalidated. -/
theorem markInvalidated_str (s : String) (queries : List Query) :
    markInvalidated (FilterArg.str s) queries = queries.map Query.invalidate := by
  simp [markInvalidated, matchQuery_str]

/-- Every write hook hands the bare table name to `invalidateQueries`. -/
theorem Mutation.onSuccess_eq (m : Mutation) :
    m.call.onSuccess = FilterArg.str m.collection.table := by
  cases m with
  | create c p => cases c <;> rfl
  | update c p => cases c <;> rfl
  | delete c id => cases c <;> rfl

/-- A fetch sends its request at least once and nothing else. -/
theorem fetchWithRetry_sent (n : Nat) (b : Backend) (req : Request) (sent : List Request) :
    ∃ k, (fetchWithRetry n b req sent).2 = sent ++ List.replicate (k + 1) req := by
  induction n generalizing sent with
  | zero => exact ⟨0, rfl⟩
  | succ n ih =>
      unfold fetchWithRetry
      cases h : throwIfError (b sent req) with
      | ok d => exact ⟨0, rfl⟩
      | error e =>
          obtain ⟨k, hk⟩ := ih (sent ++ [req])
          refine ⟨k + 1, ?_⟩
          simp only [hk]
          simp [List.replicate_succ]

/-- A fetch sends at least one request. -/
theorem fetchWithRetry_sent_length (n : Nat) (b : Backend) (req : Request)
    (sent : List Request) :
    sent.length < (fetchWithRetry n b req sent).2.length := by
  obtain ⟨k, hk⟩ := fetchWithRetry_sent n b req sent
  rw [hk]
  simp

/-- The second half of an invalidation changes entries only by settling fetches of them, position by position. -/
theorem refetchQueries_related (filters : FilterArg) (retry : Nat) (b : Backend) (now : Nat)
    (queries : List Query) (sent : List Request) :
    List.Forall₂ (Refetched filters now) queries
      (refetchQueries filters retry b now queries sent).1 := by
  induction queries generalizing sent with
  | nil => exact List.Forall₂.nil
  | cons q qs ih =>
      unfold refetchQueries
      by_cases h : matchQuery filters true q = true
      · simp only [h, if_true]
        exact List.Forall₂.cons (Or.inr ⟨h, _, rfl⟩) (ih _)
      · simp only [h]
        exact List.Forall₂.cons (Or.inl rfl) (ih _)

/-- Settling a fetch keeps the key. -/
theorem Query.settle_queryKey (q : Query) (outcome : Except JsError Data) (now : Nat) :
    (q.settle outcome now).queryKey = q.queryKey := by
  cases outcome <;> rfl

/-- A refetch keeps the key. -/
theorem Refetched.keeps_queryKey {filters : FilterArg} {now : Nat} {q q1 : Query}
    (h : Refetched filters now q q1) : q1.queryKey = q.queryKey := by
  rcases h with rfl | ⟨_, out, rfl⟩
  · rfl
  · exact Query.settle_queryKey _ _ _

/-- Lookups in two caches related position by position, by a relation that keeps keys, are related. -/
theorem findQuery_related {R : Query → Query → Prop}
    (hR : ∀ q q1, R q q1 → q1.queryKey = q.queryKey) {queries queries1 : List Query}
    (h : List.Forall₂ R queries queries1) (key : List String) :
    (findQuery queries key = none ∧ findQuery queries1 key = none) ∨
    (∃ q q1, findQuery queries key = some q ∧ findQuery queries1 key = some q1 ∧ R q q1) := by
  induction h with
  | nil => exact Or.inl ⟨rfl, rfl⟩
  | @cons q q1 qs qs1 hq _ ih =>
      by_cases hk : q.queryKey = key
      · refine Or.inr ⟨q, q1, ?_, ?_, hq⟩
        · simp [findQuery, List.find?_cons, hk]
        · simp [findQuery, List.find?_cons, hR q q1 hq, hk]
      · have hk1 : ¬ q1.queryKey = key := by rw [hR q q1 hq]; exact hk
        simpa [findQuery, List.find?_cons, hk, hk1] using ih

/-- The entry a mounting reader finds after subscribing. -/
theorem findQuery_subscribed (queries : List Query) (opts : QueryOptions) :
    findQuery (modifyQuery (buildQuery queries opts) opts.queryKey (fun q => q.subscribe))
        opts.queryKey
      = some (entryFor queries opts).subscribe := by
  rw [findQuery_modifyQuery (fun q => q.subscribe) (fun _ => rfl), findQuery_buildQuery]
  rfl

/-- What a mount does when the entry it finds must be fetched. -/
theorem useQuery_mount_of_fetch (opts : QueryOptions) (b : Backend) (now : Nat) (w : World)
    (h : (entryFor w.client.queries opts).shouldFetchOnMount w.client.staleTime now = true) :
    (useQuery_mount opts b now w).2.fetched = true ∧
    (useQuery_mount opts b now w).2.cached = (entryFor w.client.queries opts).data ∧
    (useQuery_mount opts b now w).1.sent
      = (fetchWithRetry w.client.retry b opts.queryFn w.sent).2 ∧
    (useQuery_mount opts b now w).1.client.staleTime = w.client.staleTime ∧
    findQuery (useQuery_mount opts b now w).1.client.queries opts.queryKey
      = some (((entryFor w.client.queries opts).subscribe.setOptions opts).settle
          (fetchWithRetry w.client.retry b opts.queryFn w.sent).1 now) ∧
    (useQuery_mount opts b now w).2.data
      = (((entryFor w.client.queries opts).subscribe.setOptions opts).settle
          (fetchWithRetry w.client.retry b opts.queryFn w.sent).1 now).data ∧
    (useQuery_mount opts b now w).2.error
      = (((entryFor w.client.queries opts).subscribe.setOptions opts).settle
          (fetchWithRetry w.client.retry b opts.queryFn w.sent).1 now).error := by
  have hs : (entryFor w.client.queries opts).subscribe.shouldFetchOnMount
      w.client.staleTime now = true := h
  unfold useQuery_mount
  simp only [findQuery_subscribed, hs, if_true, true_and, and_true]
  rw [findQuery_modifyQuery (fun e => (e.setOptions opts).settle _ now)
    (fun q => Query.settle_queryKey _ _ _), findQuery_subscribed]
  exact ⟨rfl, rfl⟩

/-- A mount fetches exactly when `shouldFetchOnMount` holds of the entry it finds. -/
theorem useQuery_mount_fetched (opts : QueryOptions) (b : Backend) (now : Nat) (w : World) :
    (useQuery_mount opts b now w).2.fetched
      = (entryFor w.client.queries opts).shouldFetchOnMount w.client.staleTime now := by
  have hs : (entryFor w.client.queries opts).subscribe.shouldFetchOnMount
      w.client.staleTime now
      = (entryFor w.client.queries opts).shouldFetchOnMount w.client.staleTime now := rfl
  unfold useQuery_mount
  simp only [findQuery_subscribed, hs]
  split <;> simp_all

/-- A successful mutation marks every entry of the cache and then refetches. -/
theorem Mutation.run_of_success (m : Mutation) (b : Backend) (now : Nat) (w : World)
    (h : (b w.sent m.call.request).error = none) :
    (m.run b now w).result = Except.ok (b w.sent m.call.request).data ∧
    (m.run b now w).marked = some (w.client.queries.map Query.invalidate) ∧
    (m.run b now w).final.client.staleTime = w.client.staleTime ∧
    (m.run b now w).final.client.queries
      = (refetchQueries m.call.onSuccess w.client.retry b now
          (w.client.queries.map Query.invalidate) (w.sent ++ [m.call.request])).1 := by
  have hm : markInvalidated m.call.onSuccess w.client.queries
      = w.client.queries.map Query.invalidate := by
    rw [Mutation.onSuccess_eq, markInvalidated_str]
  simp [Mutation.run, useMutation_mutate, runFn, throwIfError, h, hm]

/-- After a successful mutation the entry of any key must be fetched by the next mount, under the module's options or when nobody was reading it. -/
theorem shouldFetchOnMount_after_mutation (m : Mutation) (opts : QueryOptions) (b : Backend)
    (now now1 : Nat) (w : World) (h : (b w.sent m.call.request).error = none)
    (hc : (w.client.staleTime = queryClient.staleTime ∧ now ≤ now1) ∨
      (entryFor w.client.queries opts).isActive = false) :
    (entryFor (m.run b now w).final.client.queries opts).shouldFetchOnMount
      (m.run b now w).final.client.staleTime now1 = true := by
  obtain ⟨-, -, hst, hq⟩ := Mutation.run_of_success m b now w h
  rw [hst, hq]
  have hrel := findQuery_related (fun _ _ hr => Refetched.keeps_queryKey hr)
    (refetchQueries_related m.call.onSuccess w.client.retry b now
      (w.client.queries.map Query.invalidate) (w.sent ++ [m.call.request])) opts.queryKey
  rcases hrel with ⟨-, hnone⟩ | ⟨q, q1, hfind, hfind1, hr⟩
  · simp [entryFor, hnone, newQuery, Query.shouldFetchOnMount]
  · rw [findQuery_map Query.invalidate (fun _ => rfl)] at hfind
    cases h0 : findQuery w.client.queries opts.queryKey with
    | none => simp [h0] at hfind
    | some q0 =>
        simp only [h0, Option.map_some', Option.some.injEq] at hfind
        subst hfind
        simp only [entryFor, hfind1, Option.getD_some]
        rcases hr with rfl | ⟨hact, out, rfl⟩
        · simp [Query.shouldFetchOnMount, Query.invalidate]
        · rcases hc with ⟨hstale, hnow⟩ | hin
          · cases out with
            | error e => simp [Query.shouldFetchOnMount, Query.settle, Query.invalidate]
            | ok d =>
                have hzero : now - now1 = 0 := by omega
                simp [Query.shouldFetchOnMount, Query.settle, Query.invalidate, hstale,
                  queryClient, timeUntilStale, hzero]
          · simp [entryFor, h0] at hin
            simp [matchQuery, Query.isActive, Query.invalidate] at hact
            simp [Query.isActive] at hin
            omega

/-- After a successful mutation of any write hook: the entry of any key, if the
cache holds one, is still held with its data and is flagged invalidated right
after `onSuccess` has marked the cache; and the next mount of a reader of that
key fetches from the backend, under the module's client options, and under
any options when no mounted component was reading the entry. -/
theorem mutation_success_invalidates (m : Mutation) (opts : QueryOptions) (b : Backend)
    (now : Nat) (w : World) (h : (b w.sent m.call.request).error = none) :
    (m.run b now w).result = Except.ok (b w.sent m.call.request).data ∧
    (m.run b now w).marked.map (fun qs => findQuery qs opts.queryKey)
      = some ((findQuery w.client.queries opts.queryKey).map Query.invalidate) ∧
    (∀ (b1 : Backend) (now1 : Nat),
      (w.client.staleTime = queryClient.staleTime ∧ now ≤ now1) ∨
        (entryFor w.client.queries opts).isActive = false →
      (useQuery_mount opts b1 now1 (m.run b now w).final).2.fetched = true ∧
      (m.run b now w).final.sent.length
        < (useQuery_mount opts b1 now1 (m.run b now w).final).1.sent.length) := by
  obtain ⟨hres, hmarked, -, -⟩ := Mutation.run_of_success m b now w h
  refine ⟨hres, ?_, ?_⟩
  · rw [hmarked]
    simp [findQuery_map Query.invalidate (fun _ => rfl)]
  · intro b1 now1 hc
    have hf := shouldFetchOnMount_after_mutation m opts b now now1 w h hc
    obtain ⟨h1, -, h3, -⟩ := useQuery_mount_of_fetch opts b1 now1 (m.run b now w).final hf
    refine ⟨h1, ?_⟩
    rw [h3]
    exact fetchWithRetry_sent_length _ _ _ _

/-- A response without error is handed on as its data, one with an error as
`new Error(error.message)`. -/
theorem throwIfError_cases (r : Response) :
    (r.error = none ∧ throwIfError r = Except.ok r.data) ∨
    (∃ e, r.error = some e ∧
      throwIfError r = Except.error { name := "Error", message := e.message }) := by
  cases h : r.error with
  | none => exact Or.inl ⟨rfl, by simp [throwIfError, h]⟩
  | some e => exact Or.inr ⟨e, rfl, by simp [throwIfError, h, newError]⟩

/-- A fetch stops at the first response without error, and otherwise when its
retries are used up: the attempts before the last one all met an error, the last
response decides the outcome, and a failed fetch has used every retry. -/
theorem fetchWithRetry_attempts (n : Nat) (b : Backend) (req : Request) (sent : List Request) :
    ∃ k, k ≤ n ∧
      (∀ j, j < k → (b (sent ++ List.replicate j req) req).error ≠ none) ∧
      (fetchWithRetry n b req sent).2 = sent ++ List.replicate (k + 1) req ∧
      (fetchWithRetry n b req sent).1 = throwIfError (b (sent ++ List.replicate k req) req) ∧
      ((b (sent ++ List.replicate k req) req).error ≠ none → k = n) := by
  induction n generalizing sent with
  | zero =>
      refine ⟨0, le_refl _, ?_, rfl, ?_, fun _ => rfl⟩
      · intro j hj
        omega
      · simp [fetchWithRetry, runFn]
  | succ n ih =>
      rcases throwIfError_cases (b sent req) with ⟨hnone, hok⟩ | ⟨e, hsome, herr⟩
      · refine ⟨0, Nat.zero_le _, ?_, ?_, ?_, ?_⟩
        · intro j hj
          omega
        · simp [fetchWithRetry, hok]
        · simp [fetchWithRetry, hok]
        · intro hne
          simp [hnone] at hne
      · obtain ⟨k, hk, hbefore, hsent, hout, hlast⟩ := ih (sent ++ [req])
        have happ : ∀ j, sent ++ [req] ++ List.replicate j req
            = sent ++ List.replicate (j + 1) req := by
          intro j
          simp [List.replicate_succ]
        refine ⟨k + 1, by omega, ?_, ?_, ?_, ?_⟩
        · intro j hj
          cases j with
          | zero => simp [hsome]
          | succ j =>
              rw [← happ j]
              exact hbefore j (by omega)
        · simp only [fetchWithRetry, herr, hsent, happ]
        · simp only [fetchWithRetry, herr, hout, happ]
        · intro hne
          rw [← happ k] at hne
          rw [hlast hne]

/-- The data of the entry a read finds or builds is the data the cache holds for
the key. -/
theorem entryFor_data (queries : List Query) (opts : QueryOptions) :
    (entryFor queries opts).data = (findQuery queries opts.queryKey).bind (fun q => q.data) := by
  unfold entryFor
  cases findQuery queries opts.queryKey <;> rfl

/-- After a successful mutation the entry of a key that no mounted component was
reading is the old entry, flagged invalidated. -/
theorem findQuery_after_mutation_of_idle (m : Mutation) (key : List String) (b : Backend)
    (now : Nat) (w : World) (h : (b w.sent m.call.request).error = none)
    (hidle : ∀ q, findQuery w.client.queries key = some q → q.observers = 0) :
    findQuery (m.run b now w).final.client.queries key
      = (findQuery w.client.queries key).map Query.invalidate := by
  obtain ⟨-, -, -, hq⟩ := Mutation.run_of_success m b now w h
  rw [hq]
  have hrel := findQuery_related (fun _ _ hr => Refetched.keeps_queryKey hr)
    (refetchQueries_related m.call.onSuccess w.client.retry b now
      (w.client.queries.map Query.invalidate) (w.sent ++ [m.call.request])) key
  rw [findQuery_map Query.invalidate (fun _ => rfl)] at hrel
  rcases hrel with ⟨hnone, hnone1⟩ | ⟨q, q1, hfind, hfind1, hr⟩
  · rw [hnone1, hnone]
  · rw [hfind1, hfind]
    rcases hr with rfl | ⟨hact, -, -⟩
    · rfl
    · exfalso
      cases h0 : findQuery w.client.queries key with
      | none => simp [h0] at hfind
      | some q0 =>
          simp only [h0, Option.map_some', Option.some.injEq] at hfind
          subst hfind
          have := hidle q0 h0
          simp [matchQuery, Query.isActive, Query.invalidate, this] at hact

/-- The data a read holds once its fetch has settled: the fetched data, or the
cached data when the fetch failed. -/
theorem useQuery_mount_data_of_fetch (opts : QueryOptions) (b : Backend) (now : Nat)
    (w : World)
    (h : (entryFor w.client.queries opts).shouldFetchOnMount w.client.staleTime now = true) :
    (useQuery_mount opts b now w).2.data
      = (match (fetchWithRetry w.client.retry b opts.queryFn w.sent).1 with
          | Except.ok d => some d
          | Except.error _ => (useQuery_mount opts b now w).2.cached) ∧
    (useQuery_mount opts b now w).2.error
      = (match (fetchWithRetry w.client.retry b opts.queryFn w.sent).1 with
          | Except.ok _ => none
          | Except.error e => some e) := by
  obtain ⟨-, hc, -, -, -, hd, he⟩ := useQuery_mount_of_fetch opts b now w h
  rw [hd, he, hc]
  cases (fetchWithRetry w.client.retry b opts.queryFn w.sent).1 <;> exact ⟨rfl, rfl⟩

/-- Refetching only adds requests to those already sent. -/
theorem refetchQueries_sent (filters : FilterArg) (retry : Nat) (b : Backend) (now : Nat)
    (queries : List Query) (sent : List Request) :
    ∃ later, (refetchQueries filters retry b now queries sent).2 = sent ++ later := by
  induction queries generalizing sent with
  | nil => exact ⟨[], by simp [refetchQueries]⟩
  | cons q qs ih =>
      unfold refetchQueries
      by_cases h : matchQuery filters true q = true
      · simp only [h, if_true]
        obtain ⟨k, hk⟩ := fetchWithRetry_sent retry b q.queryFn sent
        obtain ⟨later, hl⟩ := ih (fetchWithRetry retry b q.queryFn sent).2
        exact ⟨List.replicate (k + 1) q.queryFn ++ later, by rw [hl, hk, List.append_assoc]⟩
      · simp only [h]
        exact ih sent

/-- The request of a read operation is the one its hook's `queryFn` awaits, and
that of a write operation the one its hook's `mutationFn` awaits. -/
theorem Operation.request_eq (op : Operation) :
    (∀ opts, op.readOptions = some opts → opts.queryFn = op.request) ∧
    (∀ m, op.toMutation = some m → m.call.request = op.request) := by
  cases op <;> simp [Operation.readOptions, Operation.toMutation, Operation.request,
    Mutation.call, MutationOptions.call]

/-! ## C1 and C2: successful mutations invalidate the collection's entries -/

/-- C1: after a successful mutation of any write hook of a collection, the cache
entry of the get-by-id key of that collection, for any identifier, is flagged
invalidated (and otherwise kept) when `onSuccess` has marked the cache, before
the mutation completes; and the next mount of a get-by-id reader of that
identifier sends a request to the backend, with the module's client options,
and with any options when no mounted component was reading the entry. -/
theorem successful_mutation_invalidates_record_entry (m : Mutation) (id : String)
    (b : Backend) (now : Nat) (w : World) (h : (b w.sent m.call.request).error = none) :
    (m.run b now w).marked.map (fun qs => findQuery qs (m.collection.useOne id).queryKey)
      = some ((findQuery w.client.queries (m.collection.useOne id).queryKey).map
          Query.invalidate) ∧
    (∀ (b1 : Backend) (now1 : Nat),
      w.client.staleTime = queryClient.staleTime → now ≤ now1 →
      (useQuery_mount (m.collection.useOne id) b1 now1 (m.run b now w).final).2.fetched = true ∧
      (m.run b now w).final.sent.length
        < (useQuery_mount (m.collection.useOne id) b1 now1 (m.run b now w).final).1.sent.length) ∧
    (∀ (b1 : Backend) (now1 : Nat),
      (∀ q, findQuery w.client.queries (m.collection.useOne id).queryKey = some q →
        q.observers = 0) →
      (useQuery_mount (m.collection.useOne id) b1 now1 (m.run b now w).final).2.fetched = true ∧
      (m.run b now w).final.sent.length
        < (useQuery_mount (m.collection.useOne id) b1 now1 (m.run b now w).final).1.sent.length) := by
  obtain ⟨-, hmark, hnext⟩ := mutation_success_invalidates m (m.collection.useOne id) b now w h
  refine ⟨hmark, ?_, ?_⟩
  · intro b1 now1 hcfg hclock
    exact hnext b1 now1 (Or.inl ⟨hcfg, hclock⟩)
  · intro b1 now1 hidle
    refine hnext b1 now1 (Or.inr ?_)
    unfold entryFor
    cases hq : findQuery w.client.queries (m.collection.useOne id).queryKey with
    | none => rfl
    | some q => simp [Query.isActive, hidle q hq]

/-- Witness for C1: `useUpdatePost` succeeds on `{ id: "7", title: "X" }` while the
cache holds post 7. -/
theorem successful_mutation_invalidates_record_entry_witness :
    (answering sampleWorld.sent (Mutation.update Collection.posts post7).call.request).error
      = none ∧
    ((Mutation.update Collection.posts post7).run answering 9 sampleWorld).marked.map
        (fun qs => findQuery qs (usePost "7").queryKey)
      = some ((findQuery sampleWorld.client.queries (usePost "7").queryKey).map
          Query.invalidate) :=
  ⟨rfl, (successful_mutation_invalidates_record_entry (Mutation.update Collection.posts post7)
    "7" answering 9 sampleWorld rfl).1⟩

/-- C2 fails as stated: `useDeleteComment` succeeds while the cache holds the
comments listing; the entry is flagged invalidated, and the next mount of a
listing reader does fetch, but it is first handed the cached value from before
the mutation. -/
theorem next_listing_read_is_handed_the_stale_value :
    (((Mutation.delete Collection.comments "9").run answering 9 sampleWorld).marked.bind
        (fun qs => findQuery qs useComments.queryKey)).map
        (fun q => q.isInvalidated) = some true ∧
    (useQuery_mount useComments answering 12
        ((Mutation.delete Collection.comments "9").run answering 9 sampleWorld).final).2.fetched
      = true ∧
    (useQuery_mount useComments answering 12
        ((Mutation.delete Collection.comments "9").run answering 9 sampleWorld).final).2.cached
      = some (Data.rows []) ∧
    (findQuery sampleWorld.client.queries useComments.queryKey).bind (fun q => q.data)
      = some (Data.rows []) := by
  decide

/-- C2 as amended: after a successful mutation of any write hook of a collection,
the cache entry of the listing key of that collection is flagged invalidated
(and otherwise kept) when `onSuccess` has marked the cache, before the mutation
completes. The next mount of a listing reader is handed the data the cache holds
for the key at once (the data from before the mutation when no mounted
component was reading the entry) and sends a request to the backend; once that
fetch has settled the reader holds the fetched data, or still the cached data
when the fetch failed. This holds with the module's client options, and with any
options when no mounted component was reading the entry. -/
theorem successful_mutation_marks_listing_and_next_mount_revalidates (m : Mutation)
    (b : Backend) (now : Nat) (w : World) (h : (b w.sent m.call.request).error = none) :
    (m.run b now w).marked.map (fun qs => findQuery qs m.collection.useList.queryKey)
      = some ((findQuery w.client.queries m.collection.useList.queryKey).map
          Query.invalidate) ∧
    (∀ (b1 : Backend) (now1 : Nat),
      w.client.staleTime = queryClient.staleTime → now ≤ now1 →
      (useQuery_mount m.collection.useList b1 now1 (m.run b now w).final).2.fetched = true ∧
      (m.run b now w).final.sent.length
        < (useQuery_mount m.collection.useList b1 now1 (m.run b now w).final).1.sent.length ∧
      (useQuery_mount m.collection.useList b1 now1 (m.run b now w).final).2.cached
        = (findQuery (m.run b now w).final.client.queries m.collection.useList.queryKey).bind
            (fun q => q.data) ∧
      (useQuery_mount m.collection.useList b1 now1 (m.run b now w).final).2.data
        = (match (fetchWithRetry (m.run b now w).final.client.retry b1
              m.collection.useList.queryFn (m.run b now w).final.sent).1 with
            | Except.ok d => some d
            | Except.error _ =>
                (useQuery_mount m.collection.useList b1 now1 (m.run b now w).final).2.cached)) ∧
    (∀ (b1 : Backend) (now1 : Nat),
      (∀ q, findQuery w.client.queries m.collection.useList.queryKey = some q →
        q.observers = 0) →
      (useQuery_mount m.collection.useList b1 now1 (m.run b now w).final).2.fetched = true ∧
      (m.run b now w).final.sent.length
        < (useQuery_mount m.collection.useList b1 now1 (m.run b now w).final).1.sent.length ∧
      (useQuery_mount m.collection.useList b1 now1 (m.run b now w).final).2.cached
        = (findQuery w.client.queries m.collection.useList.queryKey).bind (fun q => q.data) ∧
      (useQuery_mount m.collection.useList b1 now1 (m.run b now w).final).2.data
        = (match (fetchWithRetry (m.run b now w).final.client.retry b1
              m.collection.useList.queryFn (m.run b now w).final.sent).1 with
            | Except.ok d => some d
            | Except.error _ =>
                (useQuery_mount m.collection.useList b1 now1 (m.run b now w).final).2.cached)) := by
  obtain ⟨-, hmark, hnext⟩ := mutation_success_invalidates m m.collection.useList b now w h
  refine ⟨hmark, ?_, ?_⟩
  · intro b1 now1 hcfg hclock
    have hf := shouldFetchOnMount_after_mutation m m.collection.useList b now now1 w h
      (Or.inl ⟨hcfg, hclock⟩)
    obtain ⟨g1, g2⟩ := hnext b1 now1 (Or.inl ⟨hcfg, hclock⟩)
    obtain ⟨-, hc, -⟩ := useQuery_mount_of_fetch m.collection.useList b1 now1 _ hf
    refine ⟨g1, g2, ?_, (useQuery_mount_data_of_fetch m.collection.useList b1 now1 _ hf).1⟩
    rw [hc, entryFor_data]
  · intro b1 now1 hidle
    have hidle1 : (entryFor w.client.queries m.collection.useList).isActive = false := by
      unfold entryFor
      cases hq : findQuery w.client.queries m.collection.useList.queryKey with
      | none => rfl
      | some q => simp [Query.isActive, hidle q hq]
    have hf := shouldFetchOnMount_after_mutation m m.collection.useList b now now1 w h
      (Or.inr hidle1)
    obtain ⟨g1, g2⟩ := hnext b1 now1 (Or.inr hidle1)
    obtain ⟨-, hc, -⟩ := useQuery_mount_of_fetch m.collection.useList b1 now1 _ hf
    refine ⟨g1, g2, ?_, (useQuery_mount_data_of_fetch m.collection.useList b1 now1 _ hf).1⟩
    rw [hc, entryFor_data, findQuery_after_mutation_of_idle m _ b now w h hidle]
    cases findQuery w.client.queries m.collection.useList.queryKey <;> rfl

/-- Witness for C2 as amended: `useDeleteComment` succeeds while the cache holds
the comments listing, read by no mounted component. -/
theorem successful_mutation_marks_listing_and_next_mount_revalidates_witness :
    (answering sampleWorld.sent (Mutation.delete Collection.comments "9").call.request).error
      = none ∧
    (useQuery_mount useComments answering 12
        ((Mutation.delete Collection.comments "9").run answering 9 sampleWorld).final).2.cached
      = (findQuery sampleWorld.client.queries useComments.queryKey).bind (fun q => q.data) :=
  ⟨rfl, ((successful_mutation_marks_listing_and_next_mount_revalidates
    (Mutation.delete Collection.comments "9") answering 9 sampleWorld rfl).2.2 answering 12
    (by decide)).2.2.1⟩

/-! ## C3: entries of other collections -/

/-- C3 at a failing input: the cache holds the comments listing, not invalidated;
`useUpdatePost` succeeds on `{ id: "7", title: "X" }`; the comments listing entry
is flagged invalidated when `onSuccess` has marked the cache and still is when
the mutation completes. -/
theorem updatePost_invalidates_comments_listing :
    (findQuery sampleWorld.client.queries useComments.queryKey).map
        (fun q => q.isInvalidated) = some false ∧
    (((Mutation.update Collection.posts post7).run answering 9 sampleWorld).marked.bind
        (fun qs => findQuery qs useComments.queryKey)).map
        (fun q => q.isInvalidated) = some true ∧
    (findQuery ((Mutation.update Collection.posts post7).run answering 9
        sampleWorld).final.client.queries useComments.queryKey).map
        (fun q => q.isInvalidated) = some true := by
  decide

/-- Had `onSuccess` passed `{ queryKey: [table] }` instead of the bare string, the
listing entry of the collection would be matched, but no get-by-id entry
(their keys start with the singular name) and no entry of another collection. -/
theorem keyed_filter_matches_the_listing_only (c d : Collection) (id : String) (q : Query) :
    (q.queryKey = c.useList.queryKey →
      matchQuery (FilterArg.filters (some [c.table])) false q = true) ∧
    (q.queryKey = (d.useOne id).queryKey →
      matchQuery (FilterArg.filters (some [c.table])) false q = false) ∧
    (c ≠ d → q.queryKey = d.useList.queryKey →
      matchQuery (FilterArg.filters (some [c.table])) false q = false) := by
  refine ⟨?_, ?_, ?_⟩
  · intro h
    cases c <;>
      simp [matchQuery, FilterArg.queryKey, h, Collection.useList, Collection.table, useUsers,
        usePosts, useComments, partialMatchKey]
  · intro h
    cases c <;> cases d <;>
      simp [matchQuery, FilterArg.queryKey, h, Collection.useOne, Collection.table, useUser,
        usePost, useComment, partialMatchKey]
  · intro hcd h
    cases c <;> cases d <;>
      simp_all [matchQuery, FilterArg.queryKey, Collection.useList, Collection.table, useUsers,
        usePosts, useComments, partialMatchKey]

/-! ## C4: outcome of an operation -/

/-- C4 fails as stated: a listing read of users through the module's client, met
by a permission error, sends four requests where one run of its `queryFn` sends
one; and a listing read of comments that finds cached data and is met by the
same error ends up holding both the data and the error. -/
theorem failed_read_is_retried_and_keeps_cached_data :
    ((Operation.list Collection.users).run refusing []).2.length = 1 ∧
    (useQuery_mount useUsers refusing 5 emptyWorld).1.sent.length = 4 ∧
    (useQuery_mount useComments refusing 12 sampleWorld).2.data = some (Data.rows []) ∧
    (useQuery_mount useComments refusing 12 sampleWorld).2.error
      = some { name := "Error", message := "permission denied" } := by
  decide

/-- C4 as amended: for each of the fifteen operations, one run of its `queryFn` or
`mutationFn` sends exactly one request, fails with `new Error(error.message)` and
no data when the response carries an error, and yields the response's data
unchanged when it carries none. A write hook runs its `mutationFn` once: the
mutation's result is that of this one run, and whatever is sent after its
request belongs to the refetches of `onSuccess`. A read hook that fetches runs its
`queryFn` again after a failure, up to the client's retry count (three for the
module's client): the attempts before the last all met an error, the reader
gets the data of the last response when it carries no error, and when it
carries one every retry has been used and the reader holds that error's message
together with the data it was handed from the cache. -/
theorem operations_settle_with_the_response_and_reads_retry (op : Operation) (b : Backend)
    (now : Nat) (w : World) :
    ((op.run b w.sent).2 = w.sent ++ [op.request] ∧
      (∀ e, (b w.sent op.request).error = some e →
        (op.run b w.sent).1 = Except.error { name := "Error", message := e.message }) ∧
      ((b w.sent op.request).error = none →
        (op.run b w.sent).1 = Except.ok (b w.sent op.request).data)) ∧
    (∀ m, op.toMutation = some m →
      (m.run b now w).result = (op.run b w.sent).1 ∧
      ∃ later, (m.run b now w).final.sent = w.sent ++ [op.request] ++ later) ∧
    (∀ opts, op.readOptions = some opts →
      (useQuery_mount opts b now w).2.fetched = true →
      ∃ k, k ≤ w.client.retry ∧
        (∀ j, j < k → (b (w.sent ++ List.replicate j op.request) op.request).error ≠ none) ∧
        (useQuery_mount opts b now w).1.sent = w.sent ++ List.replicate (k + 1) op.request ∧
        ((b (w.sent ++ List.replicate k op.request) op.request).error = none →
          (useQuery_mount opts b now w).2.data
            = some (b (w.sent ++ List.replicate k op.request) op.request).data ∧
          (useQuery_mount opts b now w).2.error = none) ∧
        (∀ e, (b (w.sent ++ List.replicate k op.request) op.request).error = some e →
          k = w.client.retry ∧
          (useQuery_mount opts b now w).2.error
            = some { name := "Error", message := e.message } ∧
          (useQuery_mount opts b now w).2.data = (useQuery_mount opts b now w).2.cached)) ∧
    queryClient.retry = 3 := by
  refine ⟨⟨rfl, ?_, ?_⟩, ?_, ?_, rfl⟩
  · intro e he
    simp [Operation.run, runFn, throwIfError, he, newError]
  · intro he
    simp [Operation.run, runFn, throwIfError, he]
  · intro m hm
    have hreq := (Operation.request_eq op).2 m hm
    rcases throwIfError_cases (b w.sent op.request) with ⟨hnone, hok⟩ | ⟨e, hsome, herr⟩
    · obtain ⟨hres, -, -, -⟩ := Mutation.run_of_success m b now w (by rw [hreq]; exact hnone)
      refine ⟨by rw [hres, hreq]; simp [Operation.run, runFn, hok], ?_⟩
      obtain ⟨later, hl⟩ := refetchQueries_sent m.call.onSuccess w.client.retry b now
        (markInvalidated m.call.onSuccess w.client.queries) (w.sent ++ [op.request])
      refine ⟨later, ?_⟩
      rw [← hl]
      simp [Mutation.run, useMutation_mutate, runFn, hreq, hok]
    · refine ⟨?_, [], ?_⟩
      · simp [Mutation.run, useMutation_mutate, runFn, hreq, herr, Operation.run]
      · simp [Mutation.run, useMutation_mutate, runFn, hreq, herr]
  · intro opts hopts hfetched
    have hreq := (Operation.request_eq op).1 opts hopts
    rw [useQuery_mount_fetched] at hfetched
    obtain ⟨-, -, hsent, -⟩ := useQuery_mount_of_fetch opts b now w hfetched
    obtain ⟨hdata, herror⟩ := useQuery_mount_data_of_fetch opts b now w hfetched
    rw [hreq] at hsent hdata herror
    obtain ⟨k, hk, hbefore, hlog, hout, hlast⟩ :=
      fetchWithRetry_attempts w.client.retry b op.request w.sent
    refine ⟨k, hk, hbefore, by rw [hsent, hlog], ?_, ?_⟩
    · intro hnone
      rcases throwIfError_cases (b (w.sent ++ List.replicate k op.request) op.request) with
        ⟨-, hok⟩ | ⟨e, hsome, -⟩
      · rw [hdata, herror, hout, hok]
        exact ⟨rfl, rfl⟩
      · simp [hnone] at hsome
    · intro e he
      rcases throwIfError_cases (b (w.sent ++ List.replicate k op.request) op.request) with
        ⟨hnone, -⟩ | ⟨e1, hsome, herr⟩
      · simp [hnone] at he
      · have hee : e1 = e := by
          rw [hsome] at he
          exact Option.some.inj he
        subst hee
        refine ⟨hlast (by simp [hsome]), ?_, ?_⟩
        · rw [herror, hout, herr]
        · rw [hdata, hout, herr]

/-- Witness for C4 as amended: a listing read of users through the module's client
is met by a permission error at every attempt. -/
theorem operations_settle_with_the_response_and_reads_retry_witness :
    ∃ k, k ≤ emptyWorld.client.retry ∧
      (useQuery_mount useUsers refusing 5 emptyWorld).1.sent
        = emptyWorld.sent ++ List.replicate (k + 1) (Operation.list Collection.users).request :=
  match (operations_settle_with_the_response_and_reads_retry (Operation.list Collection.users)
      refusing 5 emptyWorld).2.2.1 useUsers rfl (by decide) with
  | ⟨k, hk, _, hsent, _⟩ => ⟨k, hk, hsent⟩

/-! ## C5: failed mutations -/

/-- C5: when the backend reports an error to the request of a mutation of any
of the nine write hooks, the mutation fails with `new Error(error.message)`,
`onSuccess` does not run, and the query client (options and every cache
entry) is what it was before the call. -/
theorem failed_mutation_leaves_cache_unchanged (m : Mutation) (b : Backend) (now : Nat)
    (w : World) (e : PostgrestError) (h : (b w.sent m.call.request).error = some e) :
    (m.run b now w).result = Except.error { name := "Error", message := e.message } ∧
    (m.run b now w).marked = none ∧
    (m.run b now w).final.client = w.client ∧
    (m.run b now w).final.sent = w.sent ++ [m.call.request] := by
  simp [Mutation.run, useMutation_mutate, runFn, throwIfError, h, newError]

/-- Witness for C5: `useCreateUser` is refused by the backend. -/
theorem failed_mutation_leaves_cache_unchanged_witness :
    ((Mutation.create Collection.users post7).run refusing 9 sampleWorld).result
      = Except.error { name := "Error", message := "permission denied" } ∧
    ((Mutation.create Collection.users post7).run refusing 9 sampleWorld).final.client
      = sampleWorld.client :=
  ⟨(failed_mutation_leaves_cache_unchanged (Mutation.create Collection.users post7) refusing 9
      sampleWorld _ rfl).1,
   (failed_mutation_leaves_cache_unchanged (Mutation.create Collection.users post7) refusing 9
      sampleWorld _ rfl).2.2.1⟩

/-! ## C6 and C7: get-by-id of a missing record -/

/-- C6: when no row of the table has the identifier asked for, the `queryFn` of
the get-by-id hook of any collection fails with an error; it does not return
an empty or null record. -/
theorem getOne_of_missing_record_fails (c : Collection) (id : String)
    (tableRows : List Record) (sent : List Request)
    (h : ∀ r ∈ tableRows, r.get "id" ≠ Scalar.str id) :
    ((Operation.getOne c id).run (fun _ req => execSelect tableRows req) sent).1
      = Except.error { name := "Error", message := singleRowError.message } := by
  have hrows : matchingRows tableRows [("id", Scalar.str id)] = [] := by
    unfold matchingRows
    rw [List.filter_eq_nil_iff]
    intro r hr
    simpa using h r hr
  cases c <;>
    simp [Operation.run, Operation.request, Collection.useOne, useUser, usePost, useComment,
      runFn, throwIfError, execSelect, Request.single, Request.eq, QueryBuilder.select,
      supabase_from, hrows, newError]

/-- Witness for C6: a users table holding only record 7 is asked for record 42. -/
theorem getOne_of_missing_record_fails_witness :
    ((Operation.getOne Collection.users "42").run
        (fun _ req => execSelect [{ fields := [("id", Scalar.str "7")] }] req) []).1
      = Except.error { name := "Error", message := singleRowError.message } :=
  getOne_of_missing_record_fails Collection.users "42"
    [{ fields := [("id", Scalar.str "7")] }] [] (by decide)

/-- C7 fails as stated: asking for the missing user 42 and asking while the
server cannot be reached both end in a plain `Error`; the two failures have the
same class name and differ in their message only. -/
theorem missing_record_and_connectivity_failures_have_one_shape :
    ∃ e1 e2 : JsError,
      ((Operation.getOne Collection.users "42").run (fun _ req => execSelect [] req) []).1
        = Except.error e1 ∧
      ((Operation.getOne Collection.users "42").run (fun _ _ => connectivityFailure) []).1
        = Except.error e2 ∧
      e1.name = e2.name ∧ e1.message ≠ e2.message ∧ { e1 with message := e2.message } = e2 := by
  exact ⟨{ name := "Error", message := singleRowError.message },
    { name := "Error", message := "TypeError: Failed to fetch" }, rfl, rfl, rfl, by decide, rfl⟩

/-- C7 as amended: whatever error the backend reports to a get-by-id, missing
record or not, the `queryFn` fails with a plain `Error` that carries the
reported message and nothing else of the backend's error. -/
theorem getOne_failure_keeps_only_the_message (c : Collection) (id : String)
    (e : PostgrestError) (d : Data) (sent : List Request) :
    ((Operation.getOne c id).run (fun _ _ => { data := d, error := some e }) sent).1
      = Except.error { name := "Error", message := e.message } := by
  simp [Operation.run, runFn, throwIfError, newError]

/-! ## C8: repeated reads -/

/-- C8 fails as stated: with the module's client, a second get-by-id read of
user 42 by a newly mounted component, with no mutation in between, sends a
second request to the backend. -/
theorem second_read_sends_second_request :
    firstRead.1.sent.length = 1 ∧
    secondRead.2.cached = firstRead.2.data ∧
    secondRead.2.fetched = true ∧
    secondRead.1.sent.length = 2 ∧
    secondRead.1.sent = [(useUser "42").queryFn, (useUser "42").queryFn] := by
  decide

/-- C8 as amended: with the module's client options, after a first get-by-id
read that fetched without error, a mounted component that renders again is
handed the value of the first read and no request is sent; a newly mounted
reader is handed that cached value at once, and since the entry is stale as soon
as it is written its read sends at least one more request to the backend. -/
theorem later_reads_serve_cache_and_refetch (c : Collection) (id : String)
    (b1 b2 : Backend) (now1 now2 : Nat) (w : World)
    (hcfg : w.client.staleTime = queryClient.staleTime) (hclock : now1 ≤ now2)
    (hfetched : (useQuery_mount (c.useOne id) b1 now1 w).2.fetched = true)
    (hok : (useQuery_mount (c.useOne id) b1 now1 w).2.error = none) :
    (∃ d, (useQuery_mount (c.useOne id) b1 now1 w).2.data = some d) ∧
    (useQuery_render (c.useOne id) (useQuery_mount (c.useOne id) b1 now1 w).1).1
      = (useQuery_mount (c.useOne id) b1 now1 w).1 ∧
    (useQuery_render (c.useOne id) (useQuery_mount (c.useOne id) b1 now1 w).1).2.data
      = (useQuery_mount (c.useOne id) b1 now1 w).2.data ∧
    (useQuery_mount (c.useOne id) b2 now2 (useQuery_mount (c.useOne id) b1 now1 w).1).2.cached
      = (useQuery_mount (c.useOne id) b1 now1 w).2.data ∧
    (useQuery_mount (c.useOne id) b2 now2 (useQuery_mount (c.useOne id) b1 now1 w).1).2.fetched
      = true ∧
    (useQuery_mount (c.useOne id) b1 now1 w).1.sent.length
      < (useQuery_mount (c.useOne id) b2 now2
          (useQuery_mount (c.useOne id) b1 now1 w).1).1.sent.length := by
  rw [useQuery_mount_fetched] at hfetched
  obtain ⟨-, -, -, hst, hfind, hdata, herr⟩ :=
    useQuery_mount_of_fetch (c.useOne id) b1 now1 w hfetched
  rw [herr] at hok
  generalize (fetchWithRetry w.client.retry b1 (c.useOne id).queryFn w.sent).1 = out
    at hfind hdata hok
  cases out with
  | error e => simp [Query.settle] at hok
  | ok d =>
      have hentry : entryFor (useQuery_mount (c.useOne id) b1 now1 w).1.client.queries
          (c.useOne id)
          = ((entryFor w.client.queries (c.useOne id)).subscribe.setOptions
              (c.useOne id)).settle (Except.ok d) now1 := by
        simp [entryFor, hfind]
      have hzero : now1 - now2 = 0 := by omega
      have hstale : (entryFor (useQuery_mount (c.useOne id) b1 now1 w).1.client.queries
          (c.useOne id)).shouldFetchOnMount
          (useQuery_mount (c.useOne id) b1 now1 w).1.client.staleTime now2 = true := by
        rw [hentry, hst, hcfg]
        simp [Query.shouldFetchOnMount, Query.settle, queryClient, timeUntilStale, hzero]
      obtain ⟨g1, g2, g3, -⟩ :=
        useQuery_mount_of_fetch (c.useOne id) b2 now2 (useQuery_mount (c.useOne id) b1 now1 w).1
          hstale
      refine ⟨⟨d, by rw [hdata]; rfl⟩, ?_, ?_, ?_, g1, ?_⟩
      · unfold useQuery_render
        rw [hfind]
      · unfold useQuery_render
        rw [hfind, hdata]
      · rw [g2, hentry, hdata]
      · rw [g3]
        exact fetchWithRetry_sent_length _ _ _ _

/-- Witness for C8 as amended: user 42 is read twice through the module's client. -/
theorem later_reads_serve_cache_and_refetch_witness :
    (useQuery_mount (useUser "42") answering 10
        (useQuery_mount (useUser "42") answering 5 emptyWorld).1).2.fetched = true :=
  (later_reads_serve_cache_and_refetch Collection.users "42" answering answering 5 10 emptyWorld
    rfl (by decide) (by decide) (by decide)).2.2.2.2.1

/-! ## C9 and C10: requests and cache keys -/

/-- C9: the requests of the five operations of a collection address the
collection's own table; list and create carry no filter; get-by-id and delete
carry the one filter `id = ` the identifier passed; update carries the one filter
`id = ` the `id` field of the payload passed, and that payload is the request's
body. -/
theorem requests_filter_by_id_only (c : Collection) (id : String) (payload : Record) :
    ((Operation.list c).request.table = c.table ∧ (Operation.list c).request.filters = []) ∧
    ((Operation.getOne c id).request.table = c.table ∧
      (Operation.getOne c id).request.filters = [("id", Scalar.str id)]) ∧
    ((Operation.create c payload).request.table = c.table ∧
      (Operation.create c payload).request.filters = [] ∧
      (Operation.create c payload).request.body = some payload) ∧
    ((Operation.update c payload).request.table = c.table ∧
      (Operation.update c payload).request.filters = [("id", payload.get "id")] ∧
      (Operation.update c payload).request.body = some payload ∧
      (Operation.update c payload).request.method = Method.update) ∧
    ((Operation.delete c id).request.table = c.table ∧
      (Operation.delete c id).request.filters = [("id", Scalar.str id)]) := by
  cases c <;> refine ⟨⟨rfl, rfl⟩, ⟨rfl, rfl⟩, ⟨rfl, rfl, rfl⟩, ⟨rfl, rfl, rfl, rfl⟩, ⟨rfl, rfl⟩⟩

/-- C10: the keys of the six read hooks tell the reads apart: two get-by-id keys
are equal exactly when collection and identifier are, two listing keys exactly
when the collections are, a listing key is never a get-by-id key, and a cache
lookup only returns an entry stored under the key asked for. -/
theorem read_keys_are_injective (c d : Collection) (i j : String) :
    ((c.useOne i).queryKey = (d.useOne j).queryKey ↔ c = d ∧ i = j) ∧
    (c.useList.queryKey = d.useList.queryKey ↔ c = d) ∧
    c.useList.queryKey ≠ (d.useOne j).queryKey ∧
    (∀ (queries : List Query) (key : List String) (q : Query),
      findQuery queries key = some q → q.queryKey = key) := by
  refine ⟨?_, ?_, ?_, ?_⟩
  · cases c <;> cases d <;>
      simp [Collection.useOne, useUser, usePost, useComment]
  · cases c <;> cases d <;>
      simp [Collection.useList, useUsers, usePosts, useComments]
  · cases c <;> cases d <;>
      simp [Collection.useList, Collection.useOne, useUsers, usePosts, useComments,
        useUser, usePost, useComment]
  · intro queries key q h
    have := List.find?_some h
    simpa using this

end SupabaseHooks
